import Mathlib

/-!
Shallow embedding of the Sketch plugin
`sort-background-colors.sketchplugin/Contents/Sketch/plugin.js`.

Numbers are modelled as rationals (`ℚ`): every computation the program
performs on the values of interest (frame coordinates, RGB channels in
[0,1], the hue arithmetic) is ordinary field arithmetic and comparison.
Host objects (MSLayer and friends) are modelled as a closed tagged
variant carrying the capabilities the plugin actually reads: kind tag,
frame, fill list, child list, and (for symbol instances) the backing
symbol master.  Fallible operations — JavaScript expressions that throw,
such as reading `fills()[0].color()` from an empty fill list — are
modelled with `Except Unit`.
-/

/-- RGB colour exposed by a fill (MSColor: `red()`, `green()`, `blue()`). -/
structure Color where
  red : ℚ
  green : ℚ
  blue : ℚ
deriving DecidableEq, Repr

/-- A fill entry of a layer style, exposing its colour. -/
structure Fill where
  color : Color
deriving DecidableEq, Repr

/-- A layer frame: `left`, `top`, `width`, `height`, independently settable. -/
structure Frame where
  left : ℚ
  top : ℚ
  width : ℚ
  height : ℚ
deriving DecidableEq, Repr

/-- Kind tag of a layer, the closed set of classes the plugin dispatches on
via `isKindOfClass` (MSShapeGroup, MSSymbolInstance, MSSymbolMaster,
MSArtboardGroup), plus `other` for every unsupported kind. -/
inductive LayerKind where
  | shapeGroup
  | symbolInstance
  | symbolMaster
  | artboardGroup
  | other
deriving DecidableEq, Repr

/-- A layer handle: kind tag, frame, fill list (of its style), direct
children, and the backing symbol master for symbol instances. -/
inductive Layer where
  | mk (kind : LayerKind) (frame : Frame) (fills : List Fill)
       (children : List Layer) (master : Option Layer)

/-- Kind tag of a layer. -/
def Layer.kind : Layer → LayerKind
  | .mk k _ _ _ _ => k

/-- Frame of a layer. -/
def Layer.frame : Layer → Frame
  | .mk _ f _ _ _ => f

/-- Fill list of a layer (the style's ordered fills). -/
def Layer.fills : Layer → List Fill
  | .mk _ _ fs _ _ => fs

/-- Direct children of a layer. -/
def Layer.children : Layer → List Layer
  | .mk _ _ _ cs _ => cs

/-- Backing symbol master of a symbol instance. -/
def Layer.master : Layer → Option Layer
  | .mk _ _ _ _ m => m

/-- Replace the frame of a layer, leaving every other attribute intact
(models the in-place `layer.frame().left = …` / `.top = …` writes). -/
def Layer.setFrame : Layer → Frame → Layer
  | .mk k _ fs cs m, f => .mk k f fs cs m

/-- The colour descriptor built by `constructLayerColor`
(`{ chroma, hue, sat, val, luma, red, green, blue }`). -/
structure Hsv where
  chroma : ℚ
  hue : ℚ
  sat : ℚ
  val : ℚ
  luma : ℚ
  red : ℚ
  green : ℚ
  blue : ℚ
deriving DecidableEq, Repr

/-- Wrap-around of a negative r-branch hue: `if (hue < 0) { hue += 360; }`. -/
def hueAdjust (h : ℚ) : ℚ :=
  if h < 0 then h + 360 else h

/-- Hue as computed inside `constructLayerColor` (plugin.js lines 170-190):
`hue` starts at 0 and is only reassigned when `val > 0` and `sat > 0`
(`sat = chr / val`), by an exact-equality case split on which channel
equals the maximum, in the order r, then g, then b. -/
def hueOf (r g b : ℚ) : ℚ :=
  let mx := max r (max g b)
  let mn := min r (min g b)
  let chr := mx - mn
  if 0 < mx then
    if 0 < chr / mx then
      if r = mx then
        hueAdjust (60 * ((g - mn - (b - mn)) / chr))
      else if g = mx then
        120 + 60 * ((b - mn - (r - mn)) / chr)
      else if b = mx then
        240 + 60 * ((r - mn - (g - mn)) / chr)
      else 0
    else 0
  else 0

/-- Which branch of the 6-way-reduced case split fires for a given RGB
triple; mirrors exactly the guard structure of `constructLayerColor`. -/
inductive HueBranch where
  | rBranch
  | gBranch
  | bBranch
  | noBranch
deriving DecidableEq, Repr

/-- Branch dispatch of the hue computation, with the same guards in the
same order as `hueOf`. -/
def hueBranchOf (r g b : ℚ) : HueBranch :=
  let mx := max r (max g b)
  let mn := min r (min g b)
  let chr := mx - mn
  if 0 < mx then
    if 0 < chr / mx then
      if r = mx then HueBranch.rBranch
      else if g = mx then HueBranch.gBranch
      else if b = mx then HueBranch.bBranch
      else HueBranch.noBranch
    else HueBranch.noBranch
  else HueBranch.noBranch

/-- The pure colour mathematics of `constructLayerColor` (plugin.js lines
160-202): from an RGB triple, the descriptor with max/min, chroma,
value = max, saturation = chroma/value when value > 0 else 0, the hue of
`hueOf`, and the non-standard luma weights 0.3, 0.59, 0.11. -/
def hsvOf (r g b : ℚ) : Hsv :=
  let mx := max r (max g b)
  let mn := min r (min g b)
  { chroma := mx - mn
    hue := hueOf r g b
    sat := if 0 < mx then (mx - mn) / mx else 0
    val := mx
    luma := 3 / 10 * r + 59 / 100 * g + 11 / 100 * b
    red := r
    green := g
    blue := b }

/-- Scan of a symbol definition's direct children as the plugin's
`forEach` performs it (plugin.js lines 107-111 and 115-119): for each
shape-group child the callback evaluates
`child.style().fills()[0].color()` — which throws when that child has an
empty fill list — but the `return` only leaves the callback, so the
computed colour is discarded and the scan continues; after the loop the
outer function falls through to `return null`. -/
def scanChildren : List Layer → Except Unit (Option Color)
  | [] => Except.ok none
  | c :: rest =>
    if c.kind = LayerKind.shapeGroup then
      match c.fills with
      | [] => Except.error ()
      | _ :: _ => scanChildren rest
    else scanChildren rest

/-- `getLayerBackground` (plugin.js lines 100-122).  Shape group: the
first fill colour, where the unguarded `fills()[0].color()` throws on an
empty fill list.  Symbol instance: the child scan over the backing
master's children (a dangling master reference makes the host bridge
throw; no claim exercises it).  Symbol master: the child scan over its
own children.  Any other kind: `null`. -/
def getLayerBackground (layer : Layer) : Except Unit (Option Color) :=
  if layer.kind = LayerKind.shapeGroup then
    match layer.fills with
    | [] => Except.error ()
    | f :: _ => Except.ok (some f.color)
  else if layer.kind = LayerKind.symbolInstance then
    match layer.master with
    | some m => scanChildren m.children
    | none => Except.error ()
  else if layer.kind = LayerKind.symbolMaster then
    scanChildren layer.children
  else
    Except.ok none

/-- `constructLayerColor` (plugin.js lines 154-202): `null` when the
layer has no readable background, otherwise the `hsvOf` descriptor of
its RGB channels. -/
def constructLayerColor (layer : Layer) : Except Unit (Option Hsv) :=
  match getLayerBackground layer with
  | Except.error e => Except.error e
  | Except.ok none => Except.ok none
  | Except.ok (some c) => Except.ok (some (hsvOf c.red c.green c.blue))

/-- `getLayerHue` (plugin.js lines 139-145): 0 when no colour descriptor
could be constructed, otherwise its hue. -/
def getLayerHue (layer : Layer) : Except Unit ℚ :=
  match constructLayerColor layer with
  | Except.error e => Except.error e
  | Except.ok none => Except.ok 0
  | Except.ok (some c) => Except.ok c.hue

/-- Sort key of a layer: the value of `getLayerHue` (0 when the layer has
no extractable background colour).  The default for a throwing key is
never observed, because `sortLayersByHue` never returns a list in that
case. -/
def hueKey (layer : Layer) : ℚ :=
  ((getLayerHue layer).toOption).getD 0

/-- Order induced by the sort comparator
`(a, b) => getLayerHue(a) - getLayerHue(b)`: a sorts no later than b
when its key is no larger. -/
def hueLe (a b : Layer) : Prop :=
  hueKey a ≤ hueKey b

instance : DecidableRel hueLe := fun a b =>
  inferInstanceAs (Decidable (hueKey a ≤ hueKey b))

instance : IsTotal Layer hueLe :=
  ⟨fun a b => le_total (hueKey a) (hueKey b)⟩

instance : IsTrans Layer hueLe :=
  ⟨fun _ _ _ h1 h2 => le_trans h1 h2⟩

/-- Whether the hue key of a layer computes without throwing. -/
def hueComputes (layer : Layer) : Bool :=
  (getLayerHue layer).toOption.isSome

/-- `sortLayersByHue` (plugin.js lines 128-132):
`layers.sort((a, b) => getLayerHue(a) - getLayerHue(b))`.  A list of at
most one element is returned unchanged, the comparator never being
invoked.  On two or more elements every element takes part in at least
one comparison, so a key extraction that throws aborts the sort;
otherwise the list is reordered into ascending key order (the host's
sort algorithm, hence its tie order, is unspecified; insertion sort
realises one admissible comparator-consistent reordering). -/
def sortLayersByHue (layers : List Layer) : Except Unit (List Layer) :=
  if layers.length ≤ 1 then Except.ok layers
  else if layers.all hueComputes then
    Except.ok (layers.insertionSort hueLe)
  else Except.error ()

/-- `getLayersWithBackgroundColor` (plugin.js lines 85-93): keep, in
order, the layers for which `getLayerBackground` is truthy (a colour,
not `null`); a throw inside the probe propagates. -/
def getLayersWithBackgroundColor : List Layer → Except Unit (List Layer)
  | [] => Except.ok []
  | l :: rest =>
    match getLayerBackground l with
    | Except.error e => Except.error e
    | Except.ok c =>
      match getLayersWithBackgroundColor rest with
      | Except.error e => Except.error e
      | Except.ok others =>
        match c with
        | some _ => Except.ok (l :: others)
        | none => Except.ok others

/-- Row-packing step of the layout loop (plugin.js lines 57-75) for the
layers after the first, threading the frame of the previously placed
layer (`lastFrame`, kept by the plugin as a live reference to the
just-positioned frame) and the running height total: a layer whose
appended right edge would pass `parentFrame.width − 10` wraps to a new
row at left 5, below the previous layer, adding its height plus 5 to the
total; otherwise it continues the row at the previous top. -/
def layoutRest (parentFrame lastFrame : Frame) (hgt : ℚ) :
    List Layer → List Layer × ℚ
  | [] => ([], hgt)
  | layer :: rest =>
    if lastFrame.left + lastFrame.width + 5 + layer.frame.width >
        parentFrame.width - 10 then
      let f : Frame := { layer.frame with
                         left := 5, top := lastFrame.top + lastFrame.height + 5 }
      let rec1 := layoutRest parentFrame f (hgt + layer.frame.height + 5) rest
      (layer.setFrame f :: rec1.1, rec1.2)
    else
      let f : Frame := { layer.frame with
                         left := lastFrame.left + lastFrame.width + 5,
                         top := lastFrame.top }
      let rec1 := layoutRest parentFrame f hgt rest
      (layer.setFrame f :: rec1.1, rec1.2)

/-- The layout pass of `sortByHue` (plugin.js lines 54-76): the running
height starts at `layers[0].frame().height() + 10` (reading `layers[0]`
of an empty list throws), the first layer is placed at (5, 5), each
later layer is appended or wrapped by `layoutRest`, and finally
`parentFrame.height = height` is the single field written on the parent
frame. -/
def layoutLayers (parentFrame : Frame) :
    List Layer → Except Unit (List Layer × Frame)
  | [] => Except.error ()
  | l :: ls =>
    let f : Frame := { l.frame with top := 5, left := 5 }
    let rec1 := layoutRest parentFrame f (l.frame.height + 10) ls
    Except.ok (l.setFrame f :: rec1.1, { parentFrame with height := rec1.2 })

/-- Host-API calls the orchestrator performs, in source order: the
observable trace of one invocation (user-facing messages and document
mutations). -/
inductive Effect where
  | showMessage (msg : String)
  | addArtboardToPage (name : String) (frame : Frame)
  | copyIntoArtboard (layer : Layer)
  | removeFromParent (layer : Layer)
  | place (layer : Layer) (left top : ℚ)
  | setArtboardHeight (h : ℚ)

/-- The orchestrator `sortByHue` (plugin.js lines 7-77) as the effect
trace of one invocation on a selection.  The artboard-context switch
(lines 15-18) runs first: a selection of exactly one MSArtboardGroup
layer is replaced by that artboard's child list.  The non-empty check
(lines 21-24) then applies to the working set, and the colourable filter
(lines 28-32) after it.  When no artboard was selected, a fresh 600×600
artboard named Colors is created at the first filtered layer's position,
every filtered layer is copied into it and the original removed (lines
35-48); the artboard's children are then the copies, content-equal to
the filtered list, so the re-filter runs on that list.  Finally the sort
and the layout run, and each layer's new position and the artboard's new
height are written. -/
def sortByHue (selection : List Layer) : Except Unit (List Effect) :=
  let pair : Option Layer × List Layer :=
    match selection with
    | [l] =>
      if l.kind = LayerKind.artboardGroup then (some l, l.children)
      else (none, selection)
    | _ => (none, selection)
  if pair.2.length < 1 then
    Except.ok [Effect.showMessage "No layers selected!"]
  else
    match getLayersWithBackgroundColor pair.2 with
    | Except.error e => Except.error e
    | Except.ok filtered =>
      if filtered.length < 1 then
        Except.ok [Effect.showMessage "No layers with background selected!"]
      else
        match pair.1 with
        | some a =>
          (match sortLayersByHue filtered with
           | Except.error e => Except.error e
           | Except.ok sorted =>
             match layoutLayers a.frame sorted with
             | Except.error e => Except.error e
             | Except.ok (placed, newFrame) =>
               Except.ok
                 ((placed.map fun l => Effect.place l l.frame.left l.frame.top) ++
                   [Effect.setArtboardHeight newFrame.height]))
        | none =>
          match filtered with
          | [] => Except.error ()
          | f0 :: _ =>
            let aFrame : Frame := ⟨f0.frame.left, f0.frame.top, 600, 600⟩
            let prep : List Effect :=
              Effect.addArtboardToPage "Colors" aFrame ::
                (filtered.map fun l =>
                  [Effect.copyIntoArtboard l, Effect.removeFromParent l]).flatten
            match getLayersWithBackgroundColor filtered with
            | Except.error e => Except.error e
            | Except.ok layers2 =>
              match sortLayersByHue layers2 with
              | Except.error e => Except.error e
              | Except.ok sorted =>
                match layoutLayers aFrame sorted with
                | Except.error e => Except.error e
                | Except.ok (placed, newFrame) =>
                  Except.ok
                    (prep ++
                      (placed.map fun l => Effect.place l l.frame.left l.frame.top) ++
                      [Effect.setArtboardHeight newFrame.height])

/-- Attributes the layout pass must leave unchanged on a laid-out layer:
everything except the frame's left and top. -/
def sameButPosition (a b : Layer) : Prop :=
  a.kind = b.kind ∧ a.fills = b.fills ∧ a.children = b.children ∧
    a.master = b.master ∧ a.frame.width = b.frame.width ∧
    a.frame.height = b.frame.height

/-- Colour E of the testable-properties scenario for symbol lookups. -/
def colE : Color := ⟨1/2, 1/4, 3/4⟩

/-- A child that is not a shape group (a text layer, say). -/
def nonShapeChild : Layer := Layer.mk LayerKind.other ⟨0, 0, 10, 10⟩ [] [] none

/-- A shape-group child whose first fill has colour `colE`. -/
def shapeChildE : Layer :=
  Layer.mk LayerKind.shapeGroup ⟨0, 0, 10, 10⟩ [⟨colE⟩] [] none

/-- A symbol master whose children are, in order, a non-shape child and a
shape child with colour `colE`. -/
def masterEx : Layer :=
  Layer.mk LayerKind.symbolMaster ⟨0, 0, 100, 100⟩ [] [nonShapeChild, shapeChildE] none

/-- A symbol instance backed by `masterEx`. -/
def symbolInstanceEx : Layer :=
  Layer.mk LayerKind.symbolInstance ⟨0, 0, 100, 100⟩ [] [] (some masterEx)

/-- A shape-group layer with an empty fill list. -/
def shapeNoFills : Layer := Layer.mk LayerKind.shapeGroup ⟨0, 0, 10, 10⟩ [] [] none

/-- A shape-group layer with a single pure-red fill. -/
def redShape : Layer :=
  Layer.mk LayerKind.shapeGroup ⟨0, 0, 10, 10⟩ [⟨⟨1, 0, 0⟩⟩] [] none

/-- An artboard with no children at all. -/
def emptyArtboard : Layer :=
  Layer.mk LayerKind.artboardGroup ⟨0, 0, 400, 400⟩ [] [] none

/-- An artboard whose only child is a non-colourable layer. -/
def artboardWithTextChild : Layer :=
  Layer.mk LayerKind.artboardGroup ⟨0, 0, 400, 400⟩ [] [nonShapeChild] none

/-- Container frame of the layout scenario: width 100. -/
def scFrame : Frame := ⟨20, 30, 100, 600⟩

/-- First 40×20 layer of the layout scenario. -/
def scLayer1 : Layer :=
  Layer.mk LayerKind.shapeGroup ⟨200, 200, 40, 20⟩ [⟨⟨1, 0, 0⟩⟩] [] none

/-- Second 40×20 layer of the layout scenario. -/
def scLayer2 : Layer :=
  Layer.mk LayerKind.shapeGroup ⟨300, 200, 40, 20⟩ [⟨⟨0, 1, 0⟩⟩] [] none

/-- Third 40×20 layer of the layout scenario. -/
def scLayer3 : Layer :=
  Layer.mk LayerKind.shapeGroup ⟨400, 200, 40, 20⟩ [⟨⟨0, 0, 1⟩⟩] [] none

/-- Range of the wrap-around adjustment: a raw r-branch hue in [-60, 60]
lands in [0, 360) after the negative case adds 360. -/
theorem hueAdjust_range (x : ℚ) (h1 : -60 ≤ x) (h2 : x ≤ 60) :
    0 ≤ hueAdjust x ∧ hueAdjust x < 360 := by
  unfold hueAdjust
  split
  · constructor <;> linarith
  · constructor <;> linarith

/-- C2 counterexample: on the tie (r=1, g=1, b=1/2) the computed hue is
not 0 (it is 60), refuting the claimed hue value. -/
theorem hsvOf_tiebreak_cex : (hsvOf 1 1 (1/2)).hue ≠ 0 := by
  norm_num [hsvOf, hueOf, hueAdjust, max_def, min_def]

/-- C2 (amended): for the input (r=1, g=1, b=1/2), where r and g tie at
the maximum, the case split resolves via the r-branch (exact equality
against max, r before g before b), and the resulting hue is 60. -/
theorem hsvOf_tiebreak_r_branch :
    hueBranchOf 1 1 (1/2) = HueBranch.rBranch ∧ (hsvOf 1 1 (1/2)).hue = 60 := by
  constructor <;> norm_num [hsvOf, hueOf, hueBranchOf, hueAdjust, max_def, min_def]

/-- C7: for every RGB triple with r = g = b (black included), the
descriptor has saturation 0 and hue 0; `hsvOf` is total on all of ℚ³,
so it never fails on any input. -/
theorem hsvOf_achromatic (r : ℚ) :
    (hsvOf r r r).sat = 0 ∧ (hsvOf r r r).hue = 0 := by
  constructor
  · simp [hsvOf]
  · simp [hsvOf, hueOf]

/-- C7 witness at the degenerate black input r = g = b = 0. -/
theorem hsvOf_achromatic_witness :
    (hsvOf 0 0 0).sat = 0 ∧ (hsvOf 0 0 0).hue = 0 :=
  hsvOf_achromatic 0

/-- C6: for every RGB triple whose maximum channel is positive and whose
chroma is positive (equivalently, saturation > 0), the computed hue lies
in the half-open interval [0, 360). -/
theorem hsvOf_hue_range (r g b : ℚ)
    (hmax : 0 < max r (max g b))
    (hchr : 0 < max r (max g b) - min r (min g b)) :
    0 ≤ (hsvOf r g b).hue ∧ (hsvOf r g b).hue < 360 := by
  have hsat : 0 < (max r (max g b) - min r (min g b)) / max r (max g b) :=
    div_pos hchr hmax
  show 0 ≤ hueOf r g b ∧ hueOf r g b < 360
  simp only [hueOf]
  set mx := max r (max g b) with hmxdef
  set mn := min r (min g b) with hmndef
  have hrb : r ≤ mx := le_max_left _ _
  have hgb : g ≤ mx := le_trans (le_max_left g b) (le_max_right r (max g b))
  have hbb : b ≤ mx := le_trans (le_max_right g b) (le_max_right r (max g b))
  have hrm : mn ≤ r := min_le_left _ _
  have hgm : mn ≤ g := le_trans (min_le_right r (min g b)) (min_le_left g b)
  have hbm : mn ≤ b := le_trans (min_le_right r (min g b)) (min_le_right g b)
  rw [if_pos hmax, if_pos hsat]
  by_cases hr : r = mx
  · rw [if_pos hr]
    have hx1 : (g - mn - (b - mn)) / (mx - mn) ≤ 1 :=
      (div_le_one hchr).mpr (by linarith)
    have hx2 : -1 ≤ (g - mn - (b - mn)) / (mx - mn) :=
      (le_div_iff₀ hchr).mpr (by linarith)
    exact hueAdjust_range _ (by linarith) (by linarith)
  · rw [if_neg hr]
    by_cases hg : g = mx
    · rw [if_pos hg]
      have hx1 : (b - mn - (r - mn)) / (mx - mn) ≤ 1 :=
        (div_le_one hchr).mpr (by linarith)
      have hx2 : -1 ≤ (b - mn - (r - mn)) / (mx - mn) :=
        (le_div_iff₀ hchr).mpr (by linarith)
      constructor <;> linarith
    · rw [if_neg hg]
      by_cases hb : b = mx
      · rw [if_pos hb]
        have hx1 : (r - mn - (g - mn)) / (mx - mn) ≤ 1 :=
          (div_le_one hchr).mpr (by linarith)
        have hx2 : -1 ≤ (r - mn - (g - mn)) / (mx - mn) :=
          (le_div_iff₀ hchr).mpr (by linarith)
        constructor <;> linarith
      · exfalso
        rcases max_choice r (max g b) with h | h
        · exact hr h.symm
        · rcases max_choice g b with h2 | h2
          · exact hg (by rw [← hmxdef] at h; rw [h, h2])
          · exact hb (by rw [← hmxdef] at h; rw [h, h2])

/-- C6 witness at pure red (1, 0, 0): max = 1 > 0, chroma = 1 > 0, and
the hue 0 lies in [0, 360). -/
theorem hsvOf_hue_range_witness :
    0 ≤ (hsvOf 1 0 0).hue ∧ (hsvOf 1 0 0).hue < 360 :=
  hsvOf_hue_range 1 0 0 (by norm_num) (by norm_num)

/-- Replacing a frame preserves the kind tag. -/
theorem Layer.kind_setFrame (l : Layer) (f : Frame) : (l.setFrame f).kind = l.kind := by
  cases l; rfl

/-- Replacing a frame preserves the fill list. -/
theorem Layer.fills_setFrame (l : Layer) (f : Frame) : (l.setFrame f).fills = l.fills := by
  cases l; rfl

/-- Replacing a frame preserves the children. -/
theorem Layer.children_setFrame (l : Layer) (f : Frame) :
    (l.setFrame f).children = l.children := by
  cases l; rfl

/-- Replacing a frame preserves the master reference. -/
theorem Layer.master_setFrame (l : Layer) (f : Frame) : (l.setFrame f).master = l.master := by
  cases l; rfl

/-- Replacing a frame installs exactly that frame. -/
theorem Layer.frame_setFrame (l : Layer) (f : Frame) : (l.setFrame f).frame = f := by
  cases l; rfl

/-- A layer repositioned by the layout loop differs from the original
only in the left/top of its frame. -/
theorem sameButPosition_reposition (l : Layer) (lf tp : ℚ) :
    sameButPosition (l.setFrame { l.frame with left := lf, top := tp }) l := by
  refine ⟨Layer.kind_setFrame .., Layer.fills_setFrame .., Layer.children_setFrame ..,
    Layer.master_setFrame .., ?_, ?_⟩ <;> rw [Layer.frame_setFrame]

/-- The tail of the layout loop repositions layers without touching any
other attribute, whatever the previous frame and running height are. -/
theorem layoutRest_preserves (parentFrame : Frame) (ls : List Layer) :
    ∀ (lastFrame : Frame) (hgt : ℚ),
      List.Forall₂ sameButPosition (layoutRest parentFrame lastFrame hgt ls).1 ls := by
  induction ls with
  | nil => intro lf hgt; exact List.Forall₂.nil
  | cons layer rest ih =>
    intro lf hgt
    rw [layoutRest]
    split
    · exact List.Forall₂.cons (sameButPosition_reposition ..) (ih _ _)
    · exact List.Forall₂.cons (sameButPosition_reposition ..) (ih _ _)

/-- C1: for the symbol instance whose backing master's children are, in
order, a non-shape child and a shape child with first-fill colour
`colE`, `getLayerBackground` evaluates to `null` — the `return` inside
the `forEach` callback leaves only the callback, never
`getLayerBackground`, which falls through to its final `return null` —
and not to the colour `colE` that both the code's own comment (get
first child background) and the claim describe. -/
theorem getLayerBackground_symbolInstance_falls_through :
    getLayerBackground symbolInstanceEx = Except.ok none ∧
      getLayerBackground symbolInstanceEx ≠ Except.ok (some colE) := by
  constructor
  · rfl
  · rw [show getLayerBackground symbolInstanceEx = Except.ok none from rfl]
    simp

/-- C3 counterexample: on a shape-group layer whose fill list is empty,
`getLayerBackground` throws (the unguarded `fills()[0].color()`) rather
than returning `null`. -/
theorem getLayerBackground_empty_fills_cex :
    getLayerBackground shapeNoFills = Except.error () ∧
      getLayerBackground shapeNoFills ≠ Except.ok none := by
  constructor
  · rfl
  · rw [show getLayerBackground shapeNoFills = Except.error () from rfl]
    simp

/-- C3 (amended): on every shape-group layer, `getLayerBackground`
returns the colour of the first fill entry when the fill list is
non-empty, and throws — it does not return `null` — when the fill list
is empty. -/
theorem getLayerBackground_shape (layer : Layer)
    (hk : layer.kind = LayerKind.shapeGroup) :
    (∀ f fs, layer.fills = f :: fs →
        getLayerBackground layer = Except.ok (some f.color)) ∧
      (layer.fills = [] → getLayerBackground layer = Except.error ()) := by
  constructor
  · intro f fs hf
    simp [getLayerBackground, hk, hf]
  · intro hf
    simp [getLayerBackground, hk, hf]

/-- C3 witness: the red shape yields its first fill colour; the fill-less
shape throws. -/
theorem getLayerBackground_shape_witness :
    getLayerBackground redShape = Except.ok (some ⟨1, 0, 0⟩) ∧
      getLayerBackground shapeNoFills = Except.error () :=
  ⟨(getLayerBackground_shape redShape rfl).1 ⟨⟨1, 0, 0⟩⟩ [] rfl,
   (getLayerBackground_shape shapeNoFills rfl).2 rfl⟩

/-- C5: with a container of width 100 and three 40×20 layers, the layout
pass places them at (5, 5), at (50, 5), and — because 50+40+5+40 = 135
exceeds the threshold 100−10 = 90 — on a new row at (5, 30), and writes
the final container height 20+10+(20+5) = 55. -/
theorem layoutLayers_scenario :
    layoutLayers scFrame [scLayer1, scLayer2, scLayer3] =
      Except.ok
        ([scLayer1.setFrame ⟨5, 5, 40, 20⟩,
          scLayer2.setFrame ⟨50, 5, 40, 20⟩,
          scLayer3.setFrame ⟨5, 30, 40, 20⟩],
          ⟨20, 30, 100, 55⟩) := by
  norm_num [layoutLayers, layoutRest, scFrame, scLayer1, scLayer2, scLayer3,
    Layer.setFrame, Layer.frame]

/-- C8: on an empty selection the orchestrator's trace is exactly the
message No layers selected! — no frame write, no parent/child change, no
document mutation of any kind, and no other message. -/
theorem sortByHue_empty_selection :
    sortByHue [] = Except.ok [Effect.showMessage "No layers selected!"] := by
  rfl

/-- C10 counterexample: on a two-element list containing a shape with an
empty fill list, the comparator's key extraction throws (the unguarded
first-fill access), so `sortLayersByHue` produces no output list at all
— in particular no permutation of its input. -/
theorem sortLayersByHue_crash_cex :
    sortLayersByHue [shapeNoFills, redShape] = Except.error () := by
  rfl

/-- C9: a successful layout run changes only each layer's frame left and
top and the container frame's height: every laid-out layer keeps its
kind, fills, children, master, frame width and frame height, and the
container frame keeps its width, left and top. -/
theorem layoutLayers_mutates_only_position
    (parentFrame : Frame) (layers placed : List Layer) (newFrame : Frame)
    (hrun : layoutLayers parentFrame layers = Except.ok (placed, newFrame)) :
    List.Forall₂ sameButPosition placed layers ∧
      newFrame.width = parentFrame.width ∧
      newFrame.left = parentFrame.left ∧
      newFrame.top = parentFrame.top := by
  cases layers with
  | nil => exact absurd hrun (by simp [layoutLayers])
  | cons l ls =>
    rw [layoutLayers] at hrun
    simp only [Except.ok.injEq, Prod.mk.injEq] at hrun
    obtain ⟨h1, h2⟩ := hrun
    subst h1
    subst h2
    exact ⟨List.Forall₂.cons (sameButPosition_reposition l 5 5)
      (layoutRest_preserves parentFrame ls _ _), rfl, rfl, rfl⟩

/-- C9 witness on the width-100 three-layer scenario. -/
theorem layoutLayers_mutates_only_position_witness :
    List.Forall₂ sameButPosition
        [scLayer1.setFrame ⟨5, 5, 40, 20⟩, scLayer2.setFrame ⟨50, 5, 40, 20⟩,
          scLayer3.setFrame ⟨5, 30, 40, 20⟩]
        [scLayer1, scLayer2, scLayer3] ∧
      (⟨20, 30, 100, 55⟩ : Frame).width = scFrame.width ∧
      (⟨20, 30, 100, 55⟩ : Frame).left = scFrame.left ∧
      (⟨20, 30, 100, 55⟩ : Frame).top = scFrame.top :=
  layoutLayers_mutates_only_position scFrame [scLayer1, scLayer2, scLayer3] _ _
    (by norm_num [layoutLayers, layoutRest, scFrame, scLayer1, scLayer2, scLayer3,
      Layer.setFrame, Layer.frame])

/-- C10 (amended): for every list of layers on which the hue key
computation succeeds — in particular every list that passed the
background-colour filter — `sortLayersByHue` returns a permutation of
its input (same multiset, nothing added, dropped or duplicated),
reordered so that the derived hue keys (0 for a layer with no
extractable background colour) are non-decreasing.  A list holding a
layer whose key extraction throws makes the sort itself throw instead
(see the counterexample). -/
theorem sortLayersByHue_perm_sorted (layers : List Layer)
    (hok : ∀ l ∈ layers, hueComputes l = true) :
    ∃ out, sortLayersByHue layers = Except.ok out ∧
      out.Perm layers ∧ List.Sorted hueLe out := by
  by_cases hlen : layers.length ≤ 1
  · refine ⟨layers, by simp [sortLayersByHue, hlen], List.Perm.refl _, ?_⟩
    cases layers with
    | nil => exact List.sorted_nil
    | cons a rest =>
      cases rest with
      | nil => exact List.sorted_singleton a
      | cons b rest2 => simp only [List.length_cons] at hlen; omega
  · refine ⟨layers.insertionSort hueLe, ?_, List.perm_insertionSort hueLe layers,
      List.sorted_insertionSort hueLe layers⟩
    have hall : layers.all hueComputes = true := List.all_eq_true.mpr hok
    simp [sortLayersByHue, hlen, hall]

/-- C10 witness on the singleton red-shape list. -/
theorem sortLayersByHue_perm_sorted_witness :
    ∃ out, sortLayersByHue [redShape] = Except.ok out ∧
      out.Perm [redShape] ∧ List.Sorted hueLe out :=
  sortLayersByHue_perm_sorted [redShape]
    (fun l hl => by rw [List.mem_singleton] at hl; subst hl; rfl)

/-- C4 counterexample: selecting exactly one artboard that has no
children terminates with the no-selection message — the artboard-context
switch runs before the non-empty validation, which therefore inspects
the substituted (empty) child list — and not with the no-colourable
message that the claim requires for a single container with no
colourable children. -/
theorem sortByHue_empty_artboard_cex :
    sortByHue [emptyArtboard] =
        Except.ok [Effect.showMessage "No layers selected!"] ∧
      sortByHue [emptyArtboard] ≠
        Except.ok [Effect.showMessage "No layers with background selected!"] := by
  constructor
  · rfl
  · rw [show sortByHue [emptyArtboard] =
        Except.ok [Effect.showMessage "No layers selected!"] from rfl]
    simp

/-- C4 (amended): the container-context switch runs before the non-empty
validation, so the validation applies to the working set after
substitution.  An empty selection terminates with the no-selection
message; a selection of exactly one container-kind layer has its
children substituted before the colourable filter, so with at least one
child but no colourable child it terminates in the no-colourable-layers
state, while with no children at all it terminates in the no-selection
state. -/
theorem sortByHue_switch_before_validation :
    (sortByHue [] = Except.ok [Effect.showMessage "No layers selected!"]) ∧
    (∀ a : Layer, a.kind = LayerKind.artboardGroup → a.children = [] →
        sortByHue [a] = Except.ok [Effect.showMessage "No layers selected!"]) ∧
    (∀ a : Layer, a.kind = LayerKind.artboardGroup → a.children ≠ [] →
        getLayersWithBackgroundColor a.children = Except.ok [] →
        sortByHue [a] =
          Except.ok [Effect.showMessage "No layers with background selected!"]) := by
  refine ⟨rfl, ?_, ?_⟩
  · intro a hk hc
    simp [sortByHue, hk, hc]
  · intro a hk hne hcol
    cases hch : a.children with
    | nil => exact absurd hch hne
    | cons c cs =>
      rw [hch] at hcol
      simp [sortByHue, hk, hch, hcol]

/-- C4 witness: the empty selection, the childless artboard, and the
artboard with a single non-colourable child each produce the stated
message. -/
theorem sortByHue_switch_before_validation_witness :
    sortByHue [] = Except.ok [Effect.showMessage "No layers selected!"] ∧
      sortByHue [emptyArtboard] =
        Except.ok [Effect.showMessage "No layers selected!"] ∧
      sortByHue [artboardWithTextChild] =
        Except.ok [Effect.showMessage "No layers with background selected!"] :=
  ⟨sortByHue_switch_before_validation.1,
   sortByHue_switch_before_validation.2.1 emptyArtboard rfl rfl,
   sortByHue_switch_before_validation.2.2 artboardWithTextChild rfl
     (fun h => List.noConfusion h) rfl⟩
